import Mathlib

/-!
Verification of the generic plugin registry and lifecycle manager
`mbf_abstract_nav::AbstractPluginManager<PluginType>`
(source: `src/mbf_abstract_nav/include/mbf_abstract_nav/impl/abstract_plugin_manager.tcc`).

The manager owns three co-maintained views: `plugins_` (name → instance,
a `std::map`), `plugins_type_` (name → type string, a `std::map`) and
`names_` (insertion-ordered `std::vector` of names).  `loadPlugins()`
reads the configured name list and, per name, resolves the `<name>.type`
parameter, invokes the injected factory `loadPlugin_` and the injected
initializer `initPlugin_`, and admits the entry into all three views on
success.

Embedding notes:
* `std::map` is embedded as an association list in which admission
  appends at the end; since the code only ever inserts a key that
  `find` did not locate, the key set and every lookup agree with the
  C++ map, and the key order of the association list coincides with
  the `names_` insertion order.
* the generic instance type `PluginType::Ptr` is a type parameter `P`;
  a null `Ptr` returned by the factory or by `getPlugin` is `none` of
  `Option P`.
* the ROS parameter source is embedded as the call-time configuration
  an `Env` carries: the ordered name list for the manager's key and a
  partial map from full parameter names (`name ++ ".type"`) to string
  values.  `get_parameter` leaves the output variable untouched when
  the parameter is absent, so the effective type string defaults to
  `""` (the local `std::string type;` default construction).
* each factory and initializer invocation is recorded in an event
  trace so that claims about which callbacks run are statable.
* `getType` dereferences a `std::map` iterator without a found check;
  its miss behavior is undefined in C++ and is embedded as `none`,
  with the safety claims only ever relying on the `some` case.
-/

namespace MBF

/-- One admitted registry entry view state: the three containers
`plugins_`, `plugins_type_` and `names_` of `AbstractPluginManager`. -/
structure RegistryState (P : Type) where
  plugins_ : List (String × P)
  plugins_type_ : List (String × String)
  names_ : List String
deriving DecidableEq

/-- The freshly constructed manager state: all three views empty. -/
def emptyState (P : Type) : RegistryState P :=
  ⟨[], [], []⟩

/-- The call-time environment of `loadPlugins()`: the configured name
list for the manager's parameter key, the parameter store for the
per-name `.type` entries, and the two injected callbacks. -/
structure Env (P : Type) where
  pluginNames : List String
  paramTypes : String → Option String
  loadPlugin_ : String → Option P
  initPlugin_ : String → P → Bool

/-- Callback invocation events, recorded in order. -/
inductive Event where
  | factoryCall (type : String)
  | initCall (name : String)
deriving DecidableEq

/-- `std::map::find` on the association-list embedding: the value
stored under key `k`, or `none` when `k` is not a key. -/
def mapFind {β : Type} (l : List (String × β)) (k : String) : Option β :=
  match l with
  | [] => none
  | e :: rest => if e.1 = k then some e.2 else mapFind rest k

/-- The effective type string for a configured name: the value of the
`name ++ ".type"` parameter, or the default-constructed `""` when the
parameter is absent (`get_parameter` leaves the variable untouched). -/
def effType {P : Type} (env : Env P) (name : String) : String :=
  (env.paramTypes (name ++ ".type")).getD ""

/-- Admission of a successfully loaded and initialized plugin: the
three inserts `plugins_.insert`, `plugins_type_.insert` and
`names_.push_back` of the success branch of `loadPlugins()`. -/
def registerEntry {P : Type} (st : RegistryState P) (name type : String) (p : P) :
    RegistryState P :=
  ⟨st.plugins_ ++ [(name, p)], st.plugins_type_ ++ [(name, type)], st.names_ ++ [name]⟩

/-- Result of the `for` loop of `loadPlugins()`: whether the loop was
left early through the duplicate-name `return false`, the registry
state when the loop ended, and the callback invocations made. -/
structure LoopResult (P : Type) where
  aborted : Bool
  state : RegistryState P
  trace : List Event
deriving DecidableEq

/-- The `for (const std::string& name : plugin_param_list)` loop of
`loadPlugins()`: per name, abort when `plugins_.find(name)` hits,
otherwise read the type, call the factory, and on a non-null instance
call the initializer; admit on success, skip on failure. -/
def loadPluginsLoop {P : Type} (env : Env P) :
    List String → RegistryState P → LoopResult P
  | [], st => ⟨false, st, []⟩
  | name :: rest, st =>
    if (mapFind st.plugins_ name).isSome then
      ⟨true, st, []⟩
    else
      let type := effType env name
      match env.loadPlugin_ type with
      | some plugin_ptr =>
        if env.initPlugin_ name plugin_ptr then
          let r := loadPluginsLoop env rest (registerEntry st name type plugin_ptr)
          ⟨r.aborted, r.state, Event.factoryCall type :: Event.initCall name :: r.trace⟩
        else
          let r := loadPluginsLoop env rest st
          ⟨r.aborted, r.state, Event.factoryCall type :: Event.initCall name :: r.trace⟩
      | none =>
        let r := loadPluginsLoop env rest st
        ⟨r.aborted, r.state, Event.factoryCall type :: r.trace⟩

/-- `AbstractPluginManager::loadPlugins()`: empty configured list
returns `false` at once; otherwise run the loop; a duplicate abort
returns `false`, and a completed loop returns
`plugins_.empty() ? false : true`. -/
def loadPlugins {P : Type} (env : Env P) (st : RegistryState P) :
    Bool × RegistryState P × List Event :=
  if env.pluginNames.isEmpty then
    (false, st, [])
  else
    let r := loadPluginsLoop env env.pluginNames st
    if r.aborted then
      (false, r.state, r.trace)
    else
      (!r.state.plugins_.isEmpty, r.state, r.trace)

/-- `AbstractPluginManager::getLoadedNames()`: returns `names_`. -/
def getLoadedNames {P : Type} (st : RegistryState P) : List String :=
  st.names_

/-- `AbstractPluginManager::hasPlugin(name)`:
`static_cast<bool>(plugins_.count(name))`. -/
def hasPlugin {P : Type} (st : RegistryState P) (name : String) : Bool :=
  (st.plugins_.countP (fun e => e.1 = name)) != 0

/-- `AbstractPluginManager::getType(name)`: `plugins_type_.find(name)`
dereferenced without a found check; the undefined miss case is
embedded as `none`. -/
def getType {P : Type} (st : RegistryState P) (name : String) : Option String :=
  mapFind st.plugins_type_ name

/-- `AbstractPluginManager::getPlugin(name)`: the instance found under
`name`, or a null `Ptr` (`none`) when the name is not registered. -/
def getPlugin {P : Type} (st : RegistryState P) (name : String) : Option P :=
  mapFind st.plugins_ name

/-- `AbstractPluginManager::clearPlugins()`: clears all three views. -/
def clearPlugins {P : Type} (_st : RegistryState P) : RegistryState P :=
  emptyState P

/-- Registry states reachable from construction by any sequence of
`loadPlugins()` (each call with its own call-time configuration and
callbacks) and `clearPlugins()` calls; the query operations do not
mutate the state. -/
inductive Reachable {P : Type} : RegistryState P → Prop where
  | init : Reachable (emptyState P)
  | load (env : Env P) (st : RegistryState P) :
      Reachable st → Reachable (loadPlugins env st).2.1
  | clear (st : RegistryState P) :
      Reachable st → Reachable (clearPlugins st)

/-- Consistency of the three views: `plugins_` and `plugins_type_`
have exactly the key sequence `names_`, and `names_` is
duplicate-free. -/
def Inv {P : Type} (st : RegistryState P) : Prop :=
  st.plugins_.map Prod.fst = st.names_ ∧
  st.plugins_type_.map Prod.fst = st.names_ ∧
  st.names_.Nodup

/-! ### Helper lemmas about the association-list embedding -/

theorem mapFind_eq_none_iff {β : Type} (l : List (String × β)) (k : String) :
    mapFind l k = none ↔ k ∉ l.map Prod.fst := by
  induction l with
  | nil => simp [mapFind]
  | cons e rest ih =>
    by_cases h : e.1 = k
    · simp [mapFind, h]
    · simp [mapFind, h, ih, Ne.symm h]

theorem mapFind_isSome_iff {β : Type} (l : List (String × β)) (k : String) :
    (mapFind l k).isSome = true ↔ k ∈ l.map Prod.fst := by
  rw [Option.isSome_iff_ne_none, ne_eq, mapFind_eq_none_iff, not_not]

theorem mapFind_append_of_none {β : Type} (l l₂ : List (String × β)) (k : String)
    (h : mapFind l k = none) : mapFind (l ++ l₂) k = mapFind l₂ k := by
  induction l with
  | nil => simp
  | cons e rest ih =>
    by_cases he : e.1 = k
    · simp [mapFind, he] at h
    · simp only [mapFind, he, if_false] at h ⊢
      exact ih h

theorem mapFind_append_left {β : Type} (l l₂ : List (String × β)) (k : String)
    (h : (mapFind l k).isSome = true) : mapFind (l ++ l₂) k = mapFind l k := by
  induction l with
  | nil => simp [mapFind] at h
  | cons e rest ih =>
    by_cases he : e.1 = k
    · simp [mapFind, he]
    · simp only [mapFind, he, if_false] at h ⊢
      exact ih h

theorem hasPlugin_iff_mem {P : Type} (st : RegistryState P) (name : String) :
    hasPlugin st name = true ↔ name ∈ st.plugins_.map Prod.fst := by
  unfold hasPlugin
  rw [bne_iff_ne, ← Nat.pos_iff_ne_zero, List.countP_pos_iff]
  constructor
  · rintro ⟨e, he, hp⟩
    simp only [decide_eq_true_eq] at hp
    exact hp ▸ List.mem_map_of_mem Prod.fst he
  · intro h
    rcases List.mem_map.mp h with ⟨e, he, hp⟩
    exact ⟨e, he, by simp [hp]⟩

theorem hasPlugin_iff_isSome {P : Type} (st : RegistryState P) (name : String) :
    hasPlugin st name = true ↔ (mapFind st.plugins_ name).isSome = true := by
  rw [hasPlugin_iff_mem, mapFind_isSome_iff]

theorem hasPlugin_false_iff_none {P : Type} (st : RegistryState P) (name : String) :
    hasPlugin st name = false ↔ mapFind st.plugins_ name = none := by
  rw [mapFind_eq_none_iff, ← hasPlugin_iff_mem]
  simp

/-! ### Step equations for the loading loop -/

theorem loop_nil {P : Type} (env : Env P) (st : RegistryState P) :
    loadPluginsLoop env [] st = ⟨false, st, []⟩ :=
  rfl

theorem loop_cons_dup {P : Type} (env : Env P) (name : String) (rest : List String)
    (st : RegistryState P) (h : (mapFind st.plugins_ name).isSome = true) :
    loadPluginsLoop env (name :: rest) st = ⟨true, st, []⟩ := by
  simp [loadPluginsLoop, h]

theorem loop_cons_success {P : Type} (env : Env P) (name : String) (rest : List String)
    (st : RegistryState P) (p : P)
    (h : mapFind st.plugins_ name = none)
    (hf : env.loadPlugin_ (effType env name) = some p)
    (hi : env.initPlugin_ name p = true) :
    loadPluginsLoop env (name :: rest) st =
      (let r := loadPluginsLoop env rest (registerEntry st name (effType env name) p)
       ⟨r.aborted, r.state,
        Event.factoryCall (effType env name) :: Event.initCall name :: r.trace⟩) := by
  simp [loadPluginsLoop, h, hf, hi]

theorem loop_cons_initfail {P : Type} (env : Env P) (name : String) (rest : List String)
    (st : RegistryState P) (p : P)
    (h : mapFind st.plugins_ name = none)
    (hf : env.loadPlugin_ (effType env name) = some p)
    (hi : env.initPlugin_ name p = false) :
    loadPluginsLoop env (name :: rest) st =
      (let r := loadPluginsLoop env rest st
       ⟨r.aborted, r.state,
        Event.factoryCall (effType env name) :: Event.initCall name :: r.trace⟩) := by
  simp [loadPluginsLoop, h, hf, hi]

theorem loop_cons_factoryfail {P : Type} (env : Env P) (name : String) (rest : List String)
    (st : RegistryState P)
    (h : mapFind st.plugins_ name = none)
    (hf : env.loadPlugin_ (effType env name) = none) :
    loadPluginsLoop env (name :: rest) st =
      (let r := loadPluginsLoop env rest st
       ⟨r.aborted, r.state, Event.factoryCall (effType env name) :: r.trace⟩) := by
  simp [loadPluginsLoop, h, hf]

/-! ### Composition of the loop over list concatenation -/

theorem loop_append_abort {P : Type} (env : Env P) (l₁ l₂ : List String)
    (st : RegistryState P) (h : (loadPluginsLoop env l₁ st).aborted = true) :
    loadPluginsLoop env (l₁ ++ l₂) st = loadPluginsLoop env l₁ st := by
  induction l₁ generalizing st with
  | nil => simp [loop_nil] at h
  | cons name rest ih =>
    by_cases hdup : (mapFind st.plugins_ name).isSome = true
    · rw [List.cons_append, loop_cons_dup env name (rest ++ l₂) st hdup,
        loop_cons_dup env name rest st hdup]
    · replace hdup : mapFind st.plugins_ name = none := by
        cases hm : mapFind st.plugins_ name <;> simp [hm] at hdup ⊢
      cases hf : env.loadPlugin_ (effType env name) with
      | none =>
        rw [loop_cons_factoryfail env name rest st hdup hf] at h
        rw [List.cons_append, loop_cons_factoryfail env name (rest ++ l₂) st hdup hf,
          loop_cons_factoryfail env name rest st hdup hf, ih st h]
      | some p =>
        cases hi : env.initPlugin_ name p with
        | false =>
          rw [loop_cons_initfail env name rest st p hdup hf hi] at h
          rw [List.cons_append, loop_cons_initfail env name (rest ++ l₂) st p hdup hf hi,
            loop_cons_initfail env name rest st p hdup hf hi, ih st h]
        | true =>
          rw [loop_cons_success env name rest st p hdup hf hi] at h
          rw [List.cons_append, loop_cons_success env name (rest ++ l₂) st p hdup hf hi,
            loop_cons_success env name rest st p hdup hf hi,
            ih (registerEntry st name (effType env name) p) h]

theorem loop_append_ok {P : Type} (env : Env P) (l₁ l₂ : List String)
    (st : RegistryState P) (h : (loadPluginsLoop env l₁ st).aborted = false) :
    loadPluginsLoop env (l₁ ++ l₂) st =
      ⟨(loadPluginsLoop env l₂ (loadPluginsLoop env l₁ st).state).aborted,
       (loadPluginsLoop env l₂ (loadPluginsLoop env l₁ st).state).state,
       (loadPluginsLoop env l₁ st).trace ++
         (loadPluginsLoop env l₂ (loadPluginsLoop env l₁ st).state).trace⟩ := by
  induction l₁ generalizing st with
  | nil => simp [loop_nil]
  | cons name rest ih =>
    by_cases hdup : (mapFind st.plugins_ name).isSome = true
    · rw [loop_cons_dup env name rest st hdup] at h
      simp at h
    · replace hdup : mapFind st.plugins_ name = none := by
        cases hm : mapFind st.plugins_ name <;> simp [hm] at hdup ⊢
      cases hf : env.loadPlugin_ (effType env name) with
      | none =>
        rw [loop_cons_factoryfail env name rest st hdup hf] at h
        rw [List.cons_append, loop_cons_factoryfail env name (rest ++ l₂) st hdup hf,
          loop_cons_factoryfail env name rest st hdup hf, ih st h]
        simp
      | some p =>
        cases hi : env.initPlugin_ name p with
        | false =>
          rw [loop_cons_initfail env name rest st p hdup hf hi] at h
          rw [List.cons_append, loop_cons_initfail env name (rest ++ l₂) st p hdup hf hi,
            loop_cons_initfail env name rest st p hdup hf hi, ih st h]
          simp
        | true =>
          rw [loop_cons_success env name rest st p hdup hf hi] at h
          rw [List.cons_append, loop_cons_success env name (rest ++ l₂) st p hdup hf hi,
            loop_cons_success env name rest st p hdup hf hi,
            ih (registerEntry st name (effType env name) p) h]
          simp

/-! ### The three-view consistency invariant is preserved -/

theorem emptyState_inv {P : Type} : Inv (emptyState P) := by
  refine ⟨rfl, rfl, List.nodup_nil⟩

theorem registerEntry_inv {P : Type} (st : RegistryState P) (name type : String) (p : P)
    (hInv : Inv st) (hname : name ∉ st.names_) : Inv (registerEntry st name type p) := by
  obtain ⟨h₁, h₂, h₃⟩ := hInv
  refine ⟨?_, ?_, ?_⟩
  · simp [registerEntry, h₁]
  · simp [registerEntry, h₂]
  · simp only [registerEntry, List.nodup_append, List.nodup_cons, List.nodup_nil,
      List.disjoint_singleton]
    exact ⟨h₃, by simp, hname⟩

theorem inv_mapFind_none_iff {P : Type} (st : RegistryState P) (name : String)
    (hInv : Inv st) : mapFind st.plugins_ name = none ↔ name ∉ st.names_ := by
  rw [mapFind_eq_none_iff, hInv.1]

theorem loop_inv {P : Type} (env : Env P) (l : List String) (st : RegistryState P)
    (hInv : Inv st) : Inv (loadPluginsLoop env l st).state := by
  induction l generalizing st with
  | nil => exact hInv
  | cons name rest ih =>
    by_cases hdup : (mapFind st.plugins_ name).isSome = true
    · rw [loop_cons_dup env name rest st hdup]
      exact hInv
    · replace hdup : mapFind st.plugins_ name = none := by
        cases hm : mapFind st.plugins_ name <;> simp [hm] at hdup ⊢
      cases hf : env.loadPlugin_ (effType env name) with
      | none =>
        rw [loop_cons_factoryfail env name rest st hdup hf]
        exact ih st hInv
      | some p =>
        cases hi : env.initPlugin_ name p with
        | false =>
          rw [loop_cons_initfail env name rest st p hdup hf hi]
          exact ih st hInv
        | true =>
          rw [loop_cons_success env name rest st p hdup hf hi]
          exact ih _ (registerEntry_inv st name (effType env name) p hInv
            ((inv_mapFind_none_iff st name hInv).mp hdup))

theorem loadPlugins_inv {P : Type} (env : Env P) (st : RegistryState P)
    (hInv : Inv st) : Inv (loadPlugins env st).2.1 := by
  unfold loadPlugins
  split
  · exact hInv
  · simp only []
    split
    · exact loop_inv env env.pluginNames st hInv
    · exact loop_inv env env.pluginNames st hInv

theorem reachable_inv {P : Type} {st : RegistryState P} (h : Reachable st) : Inv st := by
  induction h with
  | init => exact emptyState_inv
  | load env st _ ih => exact loadPlugins_inv env st ih
  | clear st _ _ => exact emptyState_inv

/-- The callback invocations a single failed name contributes: the
factory call, followed by the initializer call when the factory
produced an instance. -/
def failEvents {P : Type} (env : Env P) (name : String) : List Event :=
  match env.loadPlugin_ (effType env name) with
  | none => [Event.factoryCall (effType env name)]
  | some _ => [Event.factoryCall (effType env name), Event.initCall name]

/-! ### Concrete configurations used to evaluate the theorems -/

/-- Two distinct names of a shared type; factory and initializer
always succeed (spec scenario 1). -/
def envAllOk : Env Nat where
  pluginNames := ["p1", "p2"]
  paramTypes := fun s => if s = "p1.type" then some "tA" else
    if s = "p2.type" then some "tA" else none
  loadPlugin_ := fun t => if t = "tA" then some 7 else none
  initPlugin_ := fun _ _ => true

/-- The same name twice, everything succeeding, so the second
occurrence hits the registry (spec scenario 2). -/
def envDupOk : Env Nat where
  pluginNames := ["p1", "p1"]
  paramTypes := fun s => if s = "p1.type" then some "tA" else none
  loadPlugin_ := fun t => if t = "tA" then some 7 else none
  initPlugin_ := fun _ _ => true

/-- A repeated name whose type the factory cannot construct, followed
by a loadable name: the repeat never enters the registry. -/
def envRepeatFail : Env Nat where
  pluginNames := ["p1", "p1", "p2"]
  paramTypes := fun s => if s = "p1.type" then some "tA" else
    if s = "p2.type" then some "tB" else none
  loadPlugin_ := fun t => if t = "tB" then some 5 else none
  initPlugin_ := fun _ _ => true

/-- No names configured (spec scenario 3). -/
def envEmptyNames : Env Nat where
  pluginNames := []
  paramTypes := fun _ => none
  loadPlugin_ := fun _ => none
  initPlugin_ := fun _ _ => false

/-- The same name twice, with an initializer that always fails, so
neither occurrence is admitted. -/
def envInitFail : Env Nat where
  pluginNames := ["p1", "p1"]
  paramTypes := fun s => if s = "p1.type" then some "tA" else none
  loadPlugin_ := fun t => if t = "tA" then some 3 else none
  initPlugin_ := fun _ _ => false

/-- One name with no `.type` parameter; the factory accepts the
default empty type string. -/
def envNoType : Env Nat where
  pluginNames := ["p1"]
  paramTypes := fun _ => none
  loadPlugin_ := fun t => if t = "" then some 1 else none
  initPlugin_ := fun _ _ => true

/-- The registry state after one fully successful load of `envAllOk`
from construction. -/
def stOk : RegistryState Nat :=
  (loadPlugins envAllOk (emptyState Nat)).2.1

/-- In a duplicate-free-keyed association list, `mapFind` returns the
value of the unique entry holding the key. -/
theorem mapFind_of_mem_nodupkeys {β : Type} (l : List (String × β)) (k : String) (v : β)
    (hnd : (l.map Prod.fst).Nodup) (hm : (k, v) ∈ l) : mapFind l k = some v := by
  induction l with
  | nil => simp at hm
  | cons e rest ih =>
    simp only [List.map_cons, List.nodup_cons] at hnd
    rcases List.mem_cons.mp hm with he | hrest
    · simp [mapFind, ← he]
    · have hne : e.1 ≠ k := by
        intro hk
        exact hnd.1 (hk ▸ List.mem_map_of_mem Prod.fst hrest)
      simp only [mapFind, hne, if_false]
      exact ih hnd.2 hrest

/-- The loop never registers a name that is not in the processed
list: a key absent before stays absent when the list avoids it. -/
theorem loop_mapFind_not_mem {P : Type} (env : Env P) (mid : List String)
    (st : RegistryState P) (name : String) (hnm : name ∉ mid)
    (h : mapFind st.plugins_ name = none) :
    mapFind (loadPluginsLoop env mid st).state.plugins_ name = none := by
  induction mid generalizing st with
  | nil => exact h
  | cons m rest ih =>
    simp only [List.mem_cons, not_or] at hnm
    by_cases hdup : (mapFind st.plugins_ m).isSome = true
    · rw [loop_cons_dup env m rest st hdup]
      exact h
    · replace hdup : mapFind st.plugins_ m = none := by
        cases hm : mapFind st.plugins_ m <;> simp [hm] at hdup ⊢
      cases hf : env.loadPlugin_ (effType env m) with
      | none =>
        rw [loop_cons_factoryfail env m rest st hdup hf]
        exact ih st hnm.2 h
      | some p =>
        cases hi : env.initPlugin_ m p with
        | false =>
          rw [loop_cons_initfail env m rest st p hdup hf hi]
          exact ih st hnm.2 h
        | true =>
          rw [loop_cons_success env m rest st p hdup hf hi]
          refine ih (registerEntry st m (effType env m) p) hnm.2 ?_
          show mapFind (st.plugins_ ++ [(m, p)]) name = none
          rw [mapFind_append_of_none st.plugins_ _ name h]
          simp [mapFind, Ne.symm hnm.1]

/-! ### Claim theorems -/

/-- Claim C3: with an empty configured name list, `loadPlugins()`
returns `false` immediately, all three registry views are exactly as
before the call, and no factory or initializer callback is invoked
(the event trace is empty). -/
theorem loadPlugins_empty_config {P : Type} (env : Env P) (st : RegistryState P)
    (h : env.pluginNames = []) : loadPlugins env st = (false, st, []) := by
  simp [loadPlugins, h]

/-- Witness for C3 at the concrete empty configuration. -/
theorem loadPlugins_empty_config_evaluated :
    envEmptyNames.pluginNames = [] ∧
    loadPlugins envEmptyNames (emptyState Nat) = (false, emptyState Nat, []) :=
  ⟨rfl, loadPlugins_empty_config envEmptyNames (emptyState Nat) rfl⟩

/-- Claim C7: after `clearPlugins()` all three registry views are
empty, `getLoadedNames()` yields the empty sequence, no name is still
registered (so no stale duplicate abort can be triggered), and a
subsequent `loadPlugins()` with any configuration behaves identically
to a first-ever call on a freshly constructed manager. -/
theorem clearPlugins_resets {P : Type} (st : RegistryState P) (env : Env P) :
    getLoadedNames (clearPlugins st) = [] ∧
    (clearPlugins st).plugins_ = [] ∧
    (clearPlugins st).plugins_type_ = [] ∧
    (∀ name, hasPlugin (clearPlugins st) name = false) ∧
    loadPlugins env (clearPlugins st) = loadPlugins env (emptyState P) :=
  ⟨rfl, rfl, rfl, fun _ => rfl, rfl⟩

/-- Claim C5: in every reachable registry state, `hasPlugin(name)` is
`true` iff `name` is a key of the registry; `getPlugin(name)` returns
the stored instance for `name` when `hasPlugin(name)` is true, and a
null result otherwise.  Both operations are pure queries of the state
and return no modified registry. -/
theorem query_contract {P : Type} (st : RegistryState P) (hr : Reachable st)
    (name : String) :
    (hasPlugin st name = true ↔ name ∈ st.plugins_.map Prod.fst) ∧
    (hasPlugin st name = true ↔ (getPlugin st name).isSome = true) ∧
    (∀ p : P, (name, p) ∈ st.plugins_ → getPlugin st name = some p) ∧
    (hasPlugin st name = false → getPlugin st name = none) := by
  refine ⟨hasPlugin_iff_mem st name, hasPlugin_iff_isSome st name, ?_, ?_⟩
  · intro p hm
    have hInv := reachable_inv hr
    exact mapFind_of_mem_nodupkeys st.plugins_ name p (hInv.1 ▸ hInv.2.2) hm
  · intro h
    exact (hasPlugin_false_iff_none st name).mp h

/-- Witness for C5 at the state reached by one successful load. -/
theorem query_contract_evaluated :
    hasPlugin stOk "p1" = true ∧ getPlugin stOk "p1" = some 7 ∧
    hasPlugin stOk "p3" = false ∧ getPlugin stOk "p3" = none :=
  ⟨by decide,
   (query_contract stOk (Reachable.load envAllOk (emptyState Nat) Reachable.init)
       "p1").2.2.1 7 (by decide),
   by decide,
   (query_contract stOk (Reachable.load envAllOk (emptyState Nat) Reachable.init)
       "p3").2.2.2 (by decide)⟩

/-- Claim C6: in every reachable registry state the three views are
consistent: the name→instance map and the name→type map have exactly
the key sequence `names_`, that sequence is duplicate-free, and
`getLoadedNames()` returns exactly it (the names in
first-successful-admission order, since admission appends to all
three views together). -/
theorem views_consistent {P : Type} (st : RegistryState P) (hr : Reachable st) :
    st.plugins_.map Prod.fst = getLoadedNames st ∧
    st.plugins_type_.map Prod.fst = getLoadedNames st ∧
    (getLoadedNames st).Nodup ∧
    getLoadedNames st = st.names_ := by
  have hInv := reachable_inv hr
  exact ⟨hInv.1, hInv.2.1, hInv.2.2, rfl⟩

/-- Witness for C6 at the state reached by one successful load. -/
theorem views_consistent_evaluated :
    stOk.plugins_.map Prod.fst = getLoadedNames stOk ∧
    stOk.plugins_type_.map Prod.fst = getLoadedNames stOk ∧
    (getLoadedNames stOk).Nodup ∧
    getLoadedNames stOk = stOk.names_ :=
  views_consistent stOk (Reachable.load envAllOk (emptyState Nat) Reachable.init)

/-- Claim C4: a factory miss or an initializer failure for one name
never aborts the call: the name is inserted into none of the three
views (its `hasPlugin` stays false), and the remaining names are
processed from exactly the state the failing name received, so they
are unaffected. -/
theorem pername_failure_skips {P : Type} (env : Env P) (st : RegistryState P)
    (name : String) (rest : List String)
    (hreg : mapFind st.plugins_ name = none)
    (hfail : env.loadPlugin_ (effType env name) = none ∨
      ∃ p : P, env.loadPlugin_ (effType env name) = some p ∧
        env.initPlugin_ name p = false) :
    loadPluginsLoop env (name :: rest) st =
      ⟨(loadPluginsLoop env rest st).aborted, (loadPluginsLoop env rest st).state,
       failEvents env name ++ (loadPluginsLoop env rest st).trace⟩ ∧
    hasPlugin st name = false := by
  constructor
  · rcases hfail with hf | ⟨p, hf, hi⟩
    · rw [loop_cons_factoryfail env name rest st hreg hf]
      simp [failEvents, hf]
    · rw [loop_cons_initfail env name rest st p hreg hf hi]
      simp [failEvents, hf]
  · exact (hasPlugin_false_iff_none st name).mpr hreg

/-- Witness for C4: in `envRepeatFail` the factory misses `p1`, yet
the rest of the list is processed unchanged and `p1` is excluded. -/
theorem pername_failure_skips_evaluated :
    envRepeatFail.loadPlugin_ (effType envRepeatFail "p1") = none ∧
    loadPluginsLoop envRepeatFail ["p1", "p2"] (emptyState Nat) =
      ⟨(loadPluginsLoop envRepeatFail ["p2"] (emptyState Nat)).aborted,
       (loadPluginsLoop envRepeatFail ["p2"] (emptyState Nat)).state,
       failEvents envRepeatFail "p1" ++
         (loadPluginsLoop envRepeatFail ["p2"] (emptyState Nat)).trace⟩ ∧
    hasPlugin (emptyState Nat) "p1" = false :=
  ⟨by decide,
   (pername_failure_skips envRepeatFail (emptyState Nat) "p1" ["p2"] rfl
       (Or.inl (by decide))).1,
   (pername_failure_skips envRepeatFail (emptyState Nat) "p1" ["p2"] rfl
       (Or.inl (by decide))).2⟩

/-- Claim C9: the duplicate check consults only the registry of
admitted entries: when a name's earlier occurrence was not admitted
(factory miss or initializer failure), the name is still absent from
the registry after any intervening distinct names, so a later
occurrence does not trigger the duplicate abort but is processed
normally, re-invoking the factory and, when an instance is produced,
the initializer (both occurrences contribute identical callback
events). -/
theorem dup_check_consults_registry_only {P : Type} (env : Env P)
    (st : RegistryState P) (name : String) (mid rest : List String)
    (hreg : mapFind st.plugins_ name = none)
    (hmid : name ∉ mid)
    (hfail : env.loadPlugin_ (effType env name) = none ∨
      ∃ p : P, env.loadPlugin_ (effType env name) = some p ∧
        env.initPlugin_ name p = false) :
    mapFind (loadPluginsLoop env mid st).state.plugins_ name = none ∧
    ((loadPluginsLoop env mid st).aborted = false →
      loadPluginsLoop env (name :: (mid ++ name :: rest)) st =
        ⟨(loadPluginsLoop env rest (loadPluginsLoop env mid st).state).aborted,
         (loadPluginsLoop env rest (loadPluginsLoop env mid st).state).state,
         failEvents env name ++ (loadPluginsLoop env mid st).trace ++
           failEvents env name ++
           (loadPluginsLoop env rest (loadPluginsLoop env mid st).state).trace⟩) := by
  have hkeep := loop_mapFind_not_mem env mid st name hmid hreg
  refine ⟨hkeep, ?_⟩
  intro hab
  rcases hfail with hf | ⟨p, hf, hi⟩
  · rw [loop_cons_factoryfail env name (mid ++ name :: rest) st hreg hf,
      loop_append_ok env mid (name :: rest) st hab,
      loop_cons_factoryfail env name rest (loadPluginsLoop env mid st).state hkeep hf]
    simp [failEvents, hf]
  · rw [loop_cons_initfail env name (mid ++ name :: rest) st p hreg hf hi,
      loop_append_ok env mid (name :: rest) st hab,
      loop_cons_initfail env name rest (loadPluginsLoop env mid st).state p hkeep hf hi]
    simp [failEvents, hf]

/-- Witness for C9: in `envRepeatFail` the factory misses `p1`; after
the intervening admitted name `p2`, the repeated `p1` is processed
again (second factory invocation) instead of triggering the duplicate
abort. -/
theorem dup_check_consults_registry_only_evaluated :
    envRepeatFail.loadPlugin_ (effType envRepeatFail "p1") = none ∧
    (loadPluginsLoop envRepeatFail ["p2"] (emptyState Nat)).aborted = false ∧
    mapFind (loadPluginsLoop envRepeatFail ["p2"]
      (emptyState Nat)).state.plugins_ "p1" = none ∧
    loadPluginsLoop envRepeatFail ("p1" :: (["p2"] ++ "p1" :: [])) (emptyState Nat) =
      ⟨(loadPluginsLoop envRepeatFail []
          (loadPluginsLoop envRepeatFail ["p2"] (emptyState Nat)).state).aborted,
       (loadPluginsLoop envRepeatFail []
          (loadPluginsLoop envRepeatFail ["p2"] (emptyState Nat)).state).state,
       failEvents envRepeatFail "p1" ++
         (loadPluginsLoop envRepeatFail ["p2"] (emptyState Nat)).trace ++
         failEvents envRepeatFail "p1" ++
         (loadPluginsLoop envRepeatFail []
           (loadPluginsLoop envRepeatFail ["p2"] (emptyState Nat)).state).trace⟩ :=
  ⟨by decide, by decide,
   (dup_check_consults_registry_only envRepeatFail (emptyState Nat) "p1" ["p2"] []
       rfl (by decide) (Or.inl (by decide))).1,
   (dup_check_consults_registry_only envRepeatFail (emptyState Nat) "p1" ["p2"] []
       rfl (by decide) (Or.inl (by decide))).2 (by decide)⟩

/-- Claim C10: a missing `<name>.type` parameter is not a call-level
failure: the local type string keeps its default empty value, the
name is neither aborted on nor skipped up front — the factory is
invoked with the empty string — and the name's outcome is decided
solely by the factory and initializer results on that empty type. -/
theorem missing_type_param {P : Type} (env : Env P) (st : RegistryState P)
    (name : String) (rest : List String)
    (hparam : env.paramTypes (name ++ ".type") = none)
    (hreg : mapFind st.plugins_ name = none) :
    effType env name = "" ∧
    (loadPluginsLoop env (name :: rest) st).trace.head? =
      some (Event.factoryCall "") ∧
    (env.loadPlugin_ "" = none →
      loadPluginsLoop env (name :: rest) st =
        ⟨(loadPluginsLoop env rest st).aborted, (loadPluginsLoop env rest st).state,
         Event.factoryCall "" :: (loadPluginsLoop env rest st).trace⟩) ∧
    (∀ p : P, env.loadPlugin_ "" = some p → env.initPlugin_ name p = false →
      loadPluginsLoop env (name :: rest) st =
        ⟨(loadPluginsLoop env rest st).aborted, (loadPluginsLoop env rest st).state,
         Event.factoryCall "" :: Event.initCall name ::
           (loadPluginsLoop env rest st).trace⟩) ∧
    (∀ p : P, env.loadPlugin_ "" = some p → env.initPlugin_ name p = true →
      loadPluginsLoop env (name :: rest) st =
        ⟨(loadPluginsLoop env rest (registerEntry st name "" p)).aborted,
         (loadPluginsLoop env rest (registerEntry st name "" p)).state,
         Event.factoryCall "" :: Event.initCall name ::
           (loadPluginsLoop env rest (registerEntry st name "" p)).trace⟩) := by
  have het : effType env name = "" := by simp [effType, hparam]
  refine ⟨het, ?_, ?_, ?_, ?_⟩
  · cases hf : env.loadPlugin_ "" with
    | none =>
      rw [loop_cons_factoryfail env name rest st hreg (het ▸ hf)]
      simp [het]
    | some p =>
      cases hi : env.initPlugin_ name p with
      | false =>
        rw [loop_cons_initfail env name rest st p hreg (het ▸ hf) hi]
        simp [het]
      | true =>
        rw [loop_cons_success env name rest st p hreg (het ▸ hf) hi]
        simp [het]
  · intro hf
    rw [loop_cons_factoryfail env name rest st hreg (het ▸ hf)]
    simp [het]
  · intro p hf hi
    rw [loop_cons_initfail env name rest st p hreg (het ▸ hf) hi]
    simp [het]
  · intro p hf hi
    rw [loop_cons_success env name rest st p hreg (het ▸ hf) hi]
    simp [het]

/-- Witness for C10: `envNoType` has no `p1.type` parameter; `p1` is
loaded through the factory applied to the empty type string. -/
theorem missing_type_param_evaluated :
    envNoType.paramTypes ("p1" ++ ".type") = none ∧
    effType envNoType "p1" = "" ∧
    (loadPluginsLoop envNoType ["p1"] (emptyState Nat)).trace.head? =
      some (Event.factoryCall "") ∧
    loadPluginsLoop envNoType ["p1"] (emptyState Nat) =
      ⟨(loadPluginsLoop envNoType [] (registerEntry (emptyState Nat) "p1" "" 1)).aborted,
       (loadPluginsLoop envNoType [] (registerEntry (emptyState Nat) "p1" "" 1)).state,
       Event.factoryCall "" :: Event.initCall "p1" ::
         (loadPluginsLoop envNoType [] (registerEntry (emptyState Nat) "p1" "" 1)).trace⟩ :=
  ⟨rfl,
   (missing_type_param envNoType (emptyState Nat) "p1" [] rfl rfl).1,
   (missing_type_param envNoType (emptyState Nat) "p1" [] rfl rfl).2.1,
   (missing_type_param envNoType (emptyState Nat) "p1" [] rfl rfl).2.2.2.2 1
     (by decide) (by decide)⟩

/-- Claim C8: under the documented precondition `hasPlugin(name)`,
`getType(name)` always finds an entry in every reachable state, so
the unguarded iterator dereference of the source is reached only on
valid iterators; and admission records under the name exactly the
type string the factory was invoked with, which is what the found
entry then holds.  Without the precondition the source's behavior is
a documented caller obligation, not a safe lookup. -/
theorem getType_contract {P : Type} :
    (∀ st : RegistryState P, Reachable st → ∀ name : String,
      hasPlugin st name = true → (getType st name).isSome = true) ∧
    (∀ (env : Env P) (st : RegistryState P) (name : String) (rest : List String)
      (p : P),
      mapFind st.plugins_ name = none →
      env.loadPlugin_ (effType env name) = some p →
      env.initPlugin_ name p = true →
      mapFind st.plugins_type_ name = none →
      (loadPluginsLoop env (name :: rest) st).trace.head? =
        some (Event.factoryCall (effType env name)) ∧
      getType (registerEntry st name (effType env name) p) name =
        some (effType env name)) := by
  constructor
  · intro st hr name h
    have hInv := reachable_inv hr
    have hmem : name ∈ st.plugins_type_.map Prod.fst := by
      rw [hInv.2.1, ← hInv.1]
      exact (hasPlugin_iff_mem st name).mp h
    exact (mapFind_isSome_iff st.plugins_type_ name).mpr hmem
  · intro env st name rest p hreg hf hi htreg
    constructor
    · rw [loop_cons_success env name rest st p hreg hf hi]
      rfl
    · show mapFind (st.plugins_type_ ++ [(name, effType env name)]) name = _
      rw [mapFind_append_of_none st.plugins_type_ _ name htreg]
      simp [mapFind]

/-- Witness for C8: at the loaded state `stOk`, `hasPlugin` holds for
`p1` and `getType` finds its recorded type; an admission under the
factory-supplied type is found back verbatim. -/
theorem getType_contract_evaluated :
    hasPlugin stOk "p1" = true ∧
    (getType stOk "p1").isSome = true ∧
    getType (registerEntry (emptyState Nat) "p1" (effType envAllOk "p1") 7) "p1" =
      some (effType envAllOk "p1") :=
  ⟨by decide,
   getType_contract.1 stOk (Reachable.load envAllOk (emptyState Nat) Reachable.init)
     "p1" (by decide),
   (getType_contract.2 envAllOk (emptyState Nat) "p1" ["p2"] 7 rfl (by decide)
       (by decide) rfl).2⟩

/-- Counterexample to claim C1 as stated: from a fresh manager,
`envDupOk` admits `p1` during the call and then hits the duplicate
abort on the second `p1`, so `loadPlugins()` returns `false` while
the registry is non-empty after the call — the return value does not
equal registry non-emptiness, and a call with a successful admission
still returned `false`.  Likewise a call with an empty configured
list on a non-empty registry returns `false` with the registry left
non-empty. -/
theorem loadPlugins_return_nonempty_cex :
    ((loadPlugins envDupOk (emptyState Nat)).1 = false ∧
     (loadPlugins envDupOk (emptyState Nat)).2.1.plugins_ = [("p1", 7)] ∧
     hasPlugin (loadPlugins envDupOk (emptyState Nat)).2.1 "p1" = true) ∧
    ((loadPlugins envEmptyNames stOk).1 = false ∧
     (loadPlugins envEmptyNames stOk).2.1 = stOk ∧
     stOk.plugins_ ≠ []) := by
  exact ⟨⟨by decide, by decide, by decide⟩, ⟨by decide, by decide, by decide⟩⟩

/-- Claim C1 (amended): for every call whose loop runs to completion
(non-empty configured list, no duplicate abort), the returned boolean
equals whether the registry is non-empty after the call — so such a
call with at least one admitted name returns `true` regardless of
other names' failures. -/
theorem loadPlugins_return_iff_nonempty {P : Type} (env : Env P)
    (st : RegistryState P) (hne : env.pluginNames ≠ [])
    (hab : (loadPluginsLoop env env.pluginNames st).aborted = false) :
    ((loadPlugins env st).1 = true ↔ (loadPlugins env st).2.1.plugins_ ≠ []) := by
  unfold loadPlugins
  simp only [List.isEmpty_eq_true, hne, if_false, hab, Bool.false_eq_true,
    Bool.not_eq_true', List.isEmpty_eq_false, ite_false]

/-- Witness for C1 (amended): the mixed success/failure call of
`envRepeatFail` completes its loop with `p2` admitted and returns
`true`. -/
theorem loadPlugins_return_iff_nonempty_evaluated :
    envRepeatFail.pluginNames ≠ [] ∧
    (loadPluginsLoop envRepeatFail envRepeatFail.pluginNames
      (emptyState Nat)).aborted = false ∧
    ((loadPlugins envRepeatFail (emptyState Nat)).1 = true ↔
      (loadPlugins envRepeatFail (emptyState Nat)).2.1.plugins_ ≠ []) :=
  ⟨by decide, by decide,
   loadPlugins_return_iff_nonempty envRepeatFail (emptyState Nat) (by decide)
     (by decide)⟩

/-- Counterexample to claim C2 as stated: `envRepeatFail` configures
the repeated list `["p1", "p1", "p2"]`, but the first `p1` is never
admitted (factory miss), so the second `p1` does not hit the registry:
the call does not stop at the repeat — the later name `p2` is
attempted and admitted — and returns `true`, not `false`. -/
theorem duplicate_abort_cex :
    envRepeatFail.pluginNames = ["p1", "p1", "p2"] ∧
    (loadPlugins envRepeatFail (emptyState Nat)).1 = true ∧
    hasPlugin (loadPlugins envRepeatFail (emptyState Nat)).2.1 "p2" = true := by
  exact ⟨by decide, by decide, by decide⟩

/-- Claim C2 (amended): whenever the configured list reaches a name
that is already registered at that moment (its earlier occurrence was
admitted in this call, or it survives from a previous call),
`loadPlugins()` returns `false` and stops immediately: no later name
is attempted (no further callback events), and the registry is left
exactly as it was at the abort, so every earlier successful admission
remains registered; and encountering such a registered name is the
only condition that aborts the call mid-iteration. -/
theorem duplicate_abort_semantics {P : Type} :
    (∀ (env : Env P) (st : RegistryState P) (l₁ : List String) (name : String)
      (l₂ : List String),
      env.pluginNames = l₁ ++ name :: l₂ →
      (loadPluginsLoop env l₁ st).aborted = false →
      (mapFind (loadPluginsLoop env l₁ st).state.plugins_ name).isSome = true →
      loadPlugins env st =
        (false, (loadPluginsLoop env l₁ st).state, (loadPluginsLoop env l₁ st).trace)) ∧
    (∀ (env : Env P) (l : List String) (st : RegistryState P),
      (loadPluginsLoop env l st).aborted = true →
      ∃ (l₁ : List String) (name : String) (l₂ : List String),
        l = l₁ ++ name :: l₂ ∧
        (loadPluginsLoop env l₁ st).aborted = false ∧
        (mapFind (loadPluginsLoop env l₁ st).state.plugins_ name).isSome = true ∧
        loadPluginsLoop env l st =
          ⟨true, (loadPluginsLoop env l₁ st).state, (loadPluginsLoop env l₁ st).trace⟩) := by
  constructor
  · intro env st l₁ name l₂ hcfg h₁ h₂
    have hloop : loadPluginsLoop env env.pluginNames st =
        ⟨true, (loadPluginsLoop env l₁ st).state, (loadPluginsLoop env l₁ st).trace⟩ := by
      rw [hcfg, loop_append_ok env l₁ (name :: l₂) st h₁,
        loop_cons_dup env name l₂ (loadPluginsLoop env l₁ st).state h₂]
      simp
    have hne : env.pluginNames.isEmpty = false := by
      rw [hcfg]
      cases l₁ <;> simp
    unfold loadPlugins
    rw [hne]
    simp only [Bool.false_eq_true, if_false, hloop, if_true]
  · intro env l
    induction l with
    | nil =>
      intro st h
      simp [loop_nil] at h
    | cons name rest ih =>
      intro st h
      by_cases hdup : (mapFind st.plugins_ name).isSome = true
      · refine ⟨[], name, rest, rfl, by simp [loop_nil], ?_, ?_⟩
        · simpa [loop_nil] using hdup
        · rw [loop_cons_dup env name rest st hdup]
          simp [loop_nil]
      · replace hdup : mapFind st.plugins_ name = none := by
          cases hm : mapFind st.plugins_ name <;> simp [hm] at hdup ⊢
        cases hf : env.loadPlugin_ (effType env name) with
        | none =>
          rw [loop_cons_factoryfail env name rest st hdup hf] at h
          simp only [] at h
          obtain ⟨l₁, n, l₂, hsplit, hab, hfind, heq⟩ := ih st h
          refine ⟨name :: l₁, n, l₂, by simp [hsplit], ?_, ?_, ?_⟩
          · rw [loop_cons_factoryfail env name l₁ st hdup hf]
            simpa using hab
          · rw [loop_cons_factoryfail env name l₁ st hdup hf]
            simpa using hfind
          · rw [loop_cons_factoryfail env name rest st hdup hf,
              loop_cons_factoryfail env name l₁ st hdup hf, heq]
        | some p =>
          cases hi : env.initPlugin_ name p with
          | false =>
            rw [loop_cons_initfail env name rest st p hdup hf hi] at h
            simp only [] at h
            obtain ⟨l₁, n, l₂, hsplit, hab, hfind, heq⟩ := ih st h
            refine ⟨name :: l₁, n, l₂, by simp [hsplit], ?_, ?_, ?_⟩
            · rw [loop_cons_initfail env name l₁ st p hdup hf hi]
              simpa using hab
            · rw [loop_cons_initfail env name l₁ st p hdup hf hi]
              simpa using hfind
            · rw [loop_cons_initfail env name rest st p hdup hf hi,
                loop_cons_initfail env name l₁ st p hdup hf hi, heq]
          | true =>
            rw [loop_cons_success env name rest st p hdup hf hi] at h
            simp only [] at h
            obtain ⟨l₁, n, l₂, hsplit, hab, hfind, heq⟩ :=
              ih (registerEntry st name (effType env name) p) h
            refine ⟨name :: l₁, n, l₂, by simp [hsplit], ?_, ?_, ?_⟩
            · rw [loop_cons_success env name l₁ st p hdup hf hi]
              simpa using hab
            · rw [loop_cons_success env name l₁ st p hdup hf hi]
              simpa using hfind
            · rw [loop_cons_success env name rest st p hdup hf hi,
                loop_cons_success env name l₁ st p hdup hf hi, heq]

/-- Witness for C2 (amended): `envDupOk` admits `p1` and aborts on
its second, already-registered occurrence, returning `false` with the
admitted entry preserved. -/
theorem duplicate_abort_semantics_evaluated :
    envDupOk.pluginNames = ["p1"] ++ "p1" :: [] ∧
    (loadPluginsLoop envDupOk ["p1"] (emptyState Nat)).aborted = false ∧
    (mapFind (loadPluginsLoop envDupOk ["p1"] (emptyState Nat)).state.plugins_
      "p1").isSome = true ∧
    loadPlugins envDupOk (emptyState Nat) =
      (false, (loadPluginsLoop envDupOk ["p1"] (emptyState Nat)).state,
       (loadPluginsLoop envDupOk ["p1"] (emptyState Nat)).trace) :=
  ⟨by decide, by decide, by decide,
   duplicate_abort_semantics.1 envDupOk (emptyState Nat) ["p1"] "p1" []
     (by decide) (by decide) (by decide)⟩

end MBF
